import Mathlib

/-!
Shallow embedding of the reign-backend REST service (Express + PostgreSQL),
covering the connection model, the validation workflow
(`src/routes/validation.js`, `src/routes/connect.js`), the ping and location
nearby queries (`src/routes/pings.js`, `src/routes/locations.js`,
`src/utils/geo.js`), and the relational tables they touch
(`database/migrations`, `database/schema.sql`).

Conventions of the embedding:
* Each PostgreSQL table is a Lean `List` of a structure whose fields carry the
  column names of the schema.  Unused columns (raw timestamps that no modelled
  route reads, `updated_at`, mood-badge tables, ...) are omitted.
* UUIDs are strings; the route-level regex check is modelled character by
  character.  Fresh ids produced by `uuid_generate_v4()` are passed in as
  explicit parameters.
* Timestamps are integers (seconds); `NOW()` is an explicit `now` parameter.
  `INTERVAL '7 days'` is 604800 seconds, `INTERVAL '15 minutes'` is 900.
* `earth_distance(ll_to_earth ..)` lives in the database engine, not in this
  repository, so all nearby queries are parameterised by an abstract distance
  function `dist : ℚ → ℚ → ℚ → ℚ → ℚ` returning meters.
* JavaScript truthiness on request fields is modelled exactly: a string field
  is falsy iff empty, a JSON number field is falsy iff absent or zero.
* Each route handler is a function from the database and its request
  parameters to `Except VError result × DB`; an error leaves the database
  unchanged (the handlers roll the transaction back before replying).
-/

namespace Reign

/-! ## Data model (database/schema.sql, database/migrations/001) -/

structure User where
  id : String
  email : String
  name : Option String
deriving DecidableEq

structure ProfileItem where
  user_id : String
  item_type : String
  item_data : String
deriving DecidableEq

structure Connection where
  id : String
  from_user : String
  to_user : String
  status : String
deriving DecidableEq

structure Location where
  id : String
  user_id : String
  latitude : ℚ
  longitude : ℚ
  created_at : Int
deriving DecidableEq

structure Ping where
  id : String
  user_id : String
  message : String
  mood : String
  latitude : ℚ
  longitude : ℚ
  category : Option String
  value : Option String
  created_at : Int
deriving DecidableEq

structure ValidationRequest where
  id : String
  from_user_id : String
  to_user_id : String
  category : String
  specific_item : String
  status : String
  expires_at : Int
  created_at : Int
deriving DecidableEq

structure ValidationRecord where
  id : String
  validated_user_id : String
  validator_user_id : String
  category : String
  specific_item : String
  validation_request_id : Option String
deriving DecidableEq

structure DB where
  users : List User
  profile_items : List ProfileItem
  connections : List Connection
  locations : List Location
  pings : List Ping
  validation_requests : List ValidationRequest
  validation_records : List ValidationRecord
deriving DecidableEq

/-! ## Error envelope

One constructor per distinct `{error, details}` reply of the modelled routes,
with the HTTP status each handler attaches. -/

inductive VError where
  | missingFields
  | invalidId
  | invalidRequest
  | invalidCategory
  | invalidResponse
  | invalidLatitude
  | invalidLongitude
  | invalidRadius
  | invalidQuery
  | invalidConnection
  | userNotFound
  | notConnected
  | itemNotFound
  | duplicateRequest
  | alreadyValidated
  | requestNotFound
  | requestNotPending
  | requestExpired
deriving DecidableEq

def httpStatus : VError → Nat
  | .missingFields => 400
  | .invalidId => 400
  | .invalidRequest => 400
  | .invalidCategory => 400
  | .invalidResponse => 400
  | .invalidLatitude => 400
  | .invalidLongitude => 400
  | .invalidRadius => 400
  | .invalidQuery => 400
  | .invalidConnection => 400
  | .userNotFound => 404
  | .notConnected => 403
  | .itemNotFound => 422
  | .duplicateRequest => 409
  | .alreadyValidated => 409
  | .requestNotFound => 404
  | .requestNotPending => 410
  | .requestExpired => 410

/-! ## UUID validation (isValidUUID helper, shared by the route files)

Regex `^[0-9a-f]{8}-[0-9a-f]{4}-4[0-9a-f]{3}-[89ab][0-9a-f]{3}-[0-9a-f]{12}$`
with the `i` flag. -/

def isHexChar (c : Char) : Bool :=
  c.isDigit || ('a' ≤ c && c ≤ 'f') || ('A' ≤ c && c ≤ 'F')

def isVariantChar (c : Char) : Bool :=
  c == '8' || c == '9' || c == 'a' || c == 'b' || c == 'A' || c == 'B'

def isValidUUID (s : String) : Bool :=
  let cs := s.toList
  cs.length == 36 &&
  (List.range 36).all fun i =>
    let c := cs.getD i ' '
    if i == 8 || i == 13 || i == 18 || i == 23 then c == '-'
    else if i == 14 then c == '4'
    else if i == 19 then isVariantChar c
    else isHexChar c

theorem isValidUUID_ne_empty {s : String} (h : isValidUUID s = true) : s ≠ "" := by
  intro he
  rw [he] at h
  exact absurd h (by decide)

/-! ## Shared SQL helpers -/

/-- `ILIKE '%' || pat || '%'`: case-insensitive substring containment.
The pattern is treated as literal text (the routes interpolate user input
directly, so `%`/`_` inside `pat` would be wildcards in PostgreSQL; the
modelled claims never exercise that corner). -/
def matchesAt : List Char → List Char → Bool
  | [], _ => true
  | _ :: _, [] => false
  | a :: as, b :: bs => a == b && matchesAt as bs

def containsSub (pat : List Char) : List Char → Bool
  | [] => pat.isEmpty
  | c :: cs => matchesAt pat (c :: cs) || containsSub pat cs

def ilike (hay pat : String) : Bool :=
  containsSub (pat.toList.map Char.toLower) (hay.toList.map Char.toLower)

/-- `SELECT id FROM users WHERE id IN ($1, $2)` row count
(the handlers require it to be exactly 2). -/
def userPairCount (db : DB) (id1 id2 : String) : Nat :=
  (db.users.filter fun u => u.id == id1 || u.id == id2).length

def userExists (db : DB) (userId : String) : Bool :=
  db.users.any fun u => u.id == userId

/-- `getConnectionStatus` (validation.js lines 16-24): first connection row
between the two users in either direction, `LIMIT 1`. -/
def connBetween (u1 u2 : String) (c : Connection) : Bool :=
  (c.from_user == u1 && c.to_user == u2) || (c.from_user == u2 && c.to_user == u1)

def getConnectionStatus (db : DB) (u1 u2 : String) : Option String :=
  (db.connections.find? (connBetween u1 u2)).map Connection.status

/-! ## POST /validation/request (validation.js lines 107-259) -/

def validCategories : List String := ["skills", "education", "experience"]

/-- `category === 'skills' ? 'skill' : category` in the profile-item lookup. -/
def mapCategory (c : String) : String := if c == "skills" then "skill" else c

/-- Profile-item existence check: `item_data::text ILIKE '%specificItem%'`
under the mapped `item_type`. -/
def itemTextMatches (db : DB) (userId itemType specificItem : String) : Bool :=
  db.profile_items.any fun it =>
    it.user_id == userId && it.item_type == itemType && ilike it.item_data specificItem

def pendingMatch (fromUserId toUserId category specificItem : String)
    (r : ValidationRequest) : Bool :=
  r.from_user_id == fromUserId && r.to_user_id == toUserId &&
  r.category == category && r.specific_item == specificItem && r.status == "pending"

def pendingRequestExists (db : DB) (fromUserId toUserId category specificItem : String) : Bool :=
  db.validation_requests.any (pendingMatch fromUserId toUserId category specificItem)

def recordMatch (toUserId fromUserId category specificItem : String)
    (r : ValidationRecord) : Bool :=
  r.validated_user_id == toUserId && r.validator_user_id == fromUserId &&
  r.category == category && r.specific_item == specificItem

def recordExists (db : DB) (toUserId fromUserId category specificItem : String) : Bool :=
  db.validation_records.any (recordMatch toUserId fromUserId category specificItem)

def sevenDays : Int := 604800

def mkValidationRequest (newId fromUserId toUserId category specificItem : String)
    (now : Int) : ValidationRequest :=
  { id := newId, from_user_id := fromUserId, to_user_id := toUserId,
    category := category, specific_item := specificItem,
    status := "pending", expires_at := now + sevenDays, created_at := now }

structure RequestCreated where
  requestId : String
  createdAt : Int
deriving DecidableEq

def requestValidation (db : DB) (now : Int)
    (newId fromUserId toUserId category specificItem : String) :
    Except VError RequestCreated × DB :=
  if fromUserId = "" ∨ toUserId = "" ∨ category = "" ∨ specificItem = "" then
    (Except.error VError.missingFields, db)
  else if ¬ (isValidUUID fromUserId = true ∧ isValidUUID toUserId = true) then
    (Except.error VError.invalidId, db)
  else if fromUserId = toUserId then
    (Except.error VError.invalidRequest, db)
  else if category ∉ validCategories then
    (Except.error VError.invalidCategory, db)
  else if userPairCount db fromUserId toUserId ≠ 2 then
    (Except.error VError.userNotFound, db)
  else if getConnectionStatus db fromUserId toUserId ≠ some "connected" then
    (Except.error VError.notConnected, db)
  else if ¬ itemTextMatches db toUserId (mapCategory category) specificItem = true then
    (Except.error VError.itemNotFound, db)
  else if pendingRequestExists db fromUserId toUserId category specificItem = true then
    (Except.error VError.duplicateRequest, db)
  else if recordExists db toUserId fromUserId category specificItem = true then
    (Except.error VError.alreadyValidated, db)
  else
    (Except.ok ⟨newId, now⟩,
     { db with validation_requests :=
         db.validation_requests ++
           [mkValidationRequest newId fromUserId toUserId category specificItem now] })

/-! ## C1 -/

theorem getConnectionStatus_ne_connected (db : DB) (u1 u2 : String)
    (hconn : ∀ c ∈ db.connections, connBetween u1 u2 c = true → c.status ≠ "connected") :
    getConnectionStatus db u1 u2 ≠ some "connected" := by
  unfold getConnectionStatus
  cases hf : db.connections.find? (connBetween u1 u2) with
  | none => simp
  | some c =>
    have hm := List.mem_of_find?_eq_some hf
    have hp := List.find?_some hf
    simp only [Option.map_some']
    intro hEq
    exact hconn c hm hp (Option.some.inj hEq)

theorem validCategory_ne_empty {c : String} (h : c ∈ validCategories) : c ≠ "" := by
  fin_cases h <;> decide

/-- C1: if both users exist but no connection row with status `connected`
exists between the two users in either direction, `POST /validation/request`
fails with the not-connected error (HTTP 403) and leaves the database
unchanged (in particular, no ValidationRequest row is created), regardless of
the state of profile items, pending requests or validation records. -/
theorem requestValidation_notConnected
    (db : DB) (now : Int) (newId fromUserId toUserId category specificItem : String)
    (hfu : isValidUUID fromUserId = true) (htu : isValidUUID toUserId = true)
    (hne : fromUserId ≠ toUserId)
    (hcat : category ∈ validCategories)
    (hitem : specificItem ≠ "")
    (husers : userPairCount db fromUserId toUserId = 2)
    (hconn : ∀ c ∈ db.connections,
        connBetween fromUserId toUserId c = true → c.status ≠ "connected") :
    requestValidation db now newId fromUserId toUserId category specificItem
      = (Except.error VError.notConnected, db) ∧
    httpStatus VError.notConnected = 403 := by
  refine ⟨?_, rfl⟩
  have h0 : ¬ (fromUserId = "" ∨ toUserId = "" ∨ category = "" ∨ specificItem = "") := by
    push_neg
    exact ⟨isValidUUID_ne_empty hfu, isValidUUID_ne_empty htu,
           validCategory_ne_empty hcat, hitem⟩
  unfold requestValidation
  rw [if_neg h0, if_neg (not_not_intro ⟨hfu, htu⟩), if_neg hne,
      if_neg (not_not_intro hcat), if_neg (not_not_intro husers),
      if_pos (getConnectionStatus_ne_connected db fromUserId toUserId hconn)]

/-- Concrete instantiation of C1: two existing users, a `pending` (not
`connected`) connection row between them, item present, no prior requests. -/
def uuidA : String := "11111111-1111-4111-8111-111111111111"
def uuidB : String := "22222222-2222-4222-8222-222222222222"
def uuidC : String := "33333333-3333-4333-8333-333333333333"
def uuidD : String := "44444444-4444-4444-8444-444444444444"

def dbC1 : DB :=
  { users := [⟨uuidA, "a@x.com", none⟩, ⟨uuidB, "b@x.com", some "Bea"⟩],
    profile_items := [⟨uuidB, "skill", "\x7b\"skill\":\"Go\"\x7d"⟩],
    connections := [⟨uuidD, uuidA, uuidB, "pending"⟩],
    locations := [], pings := [],
    validation_requests := [], validation_records := [] }

theorem requestValidation_notConnected_witness :
    requestValidation dbC1 0 uuidC uuidA uuidB "skills" "Go"
      = (Except.error VError.notConnected, dbC1) ∧
    httpStatus VError.notConnected = 403 :=
  requestValidation_notConnected dbC1 0 uuidC uuidA uuidB "skills" "Go"
    (by decide) (by decide) (by decide) (by decide) (by decide) (by decide)
    (by
      intro c hc hcb
      simp only [dbC1] at hc
      rw [List.mem_singleton] at hc
      subst hc
      decide)

/-! ## POST /validation/respond (validation.js lines 262-374) -/

/-- The request lookup joins `users` twice (`u1`, `u2`); a request whose
endpoints are missing from `users` produces no row. -/
def findRequestJoined (db : DB) (requestId : String) : Option ValidationRequest :=
  db.validation_requests.find? fun r =>
    r.id == requestId && userExists db r.from_user_id && userExists db r.to_user_id

def validResponses : List String := ["approved", "declined"]

def mkValidationRecord (newRecId : String) (req : ValidationRequest)
    (requestId : String) : ValidationRecord :=
  { id := newRecId, validated_user_id := req.to_user_id,
    validator_user_id := req.from_user_id,
    category := req.category, specific_item := req.specific_item,
    validation_request_id := some requestId }

def respondToValidation (db : DB) (now : Int) (newRecId requestId response : String) :
    Except VError Unit × DB :=
  if requestId = "" ∨ response = "" then
    (Except.error VError.missingFields, db)
  else if ¬ isValidUUID requestId = true then
    (Except.error VError.invalidId, db)
  else if response ∉ validResponses then
    (Except.error VError.invalidResponse, db)
  else
    match findRequestJoined db requestId with
    | none => (Except.error VError.requestNotFound, db)
    | some req =>
      if req.status ≠ "pending" then
        (Except.error VError.requestNotPending, db)
      else if now > req.expires_at then
        (Except.error VError.requestExpired, db)
      else
        (Except.ok (),
         { db with
            validation_requests := db.validation_requests.map fun r =>
              if r.id == requestId then { r with status := response } else r,
            validation_records :=
              if response == "approved" then
                db.validation_records ++ [mkValidationRecord newRecId req requestId]
              else db.validation_records })

theorem validResponse_ne_empty {s : String} (h : s ∈ validResponses) : s ≠ "" := by
  fin_cases h <;> decide

theorem findRequestJoined_id {db : DB} {requestId : String} {req : ValidationRequest}
    (h : findRequestJoined db requestId = some req) : req.id = requestId := by
  have hp := List.find?_some h
  simp only [Bool.and_eq_true, beq_iff_eq] at hp
  exact hp.1.1

/-- Successful-response reduction, shared by the theorems about the
pending/unexpired branch of `POST /validation/respond`. -/
theorem respondToValidation_success_eq
    (db : DB) (now : Int) (newRecId requestId response : String)
    (hid : isValidUUID requestId = true)
    (hresp : response ∈ validResponses)
    (req : ValidationRequest)
    (hfind : findRequestJoined db requestId = some req)
    (hpend : req.status = "pending")
    (hexp : ¬ now > req.expires_at) :
    respondToValidation db now newRecId requestId response
      = (Except.ok (),
         { db with
            validation_requests := db.validation_requests.map fun r =>
              if r.id == requestId then { r with status := response } else r,
            validation_records :=
              if response == "approved" then
                db.validation_records ++ [mkValidationRecord newRecId req requestId]
              else db.validation_records }) := by
  have h0 : ¬ (requestId = "" ∨ response = "") := by
    push_neg
    exact ⟨isValidUUID_ne_empty hid, validResponse_ne_empty hresp⟩
  unfold respondToValidation
  rw [if_neg h0, if_neg (not_not_intro hid), if_neg (not_not_intro hresp)]
  simp only [hfind]
  rw [if_neg (not_not_intro hpend), if_neg hexp]

/-! ## C3 -/

/-- C3: responding to a request whose status is not `pending` fails with the
request-no-longer-pending error (HTTP 410); responding to a pending request
whose `expires_at` has passed fails with the request-expired error (HTTP 410);
in both cases the database (in particular `validation_records` and the request
row) is left unchanged. -/
theorem respondToValidation_notPending_or_expired
    (db : DB) (now : Int) (newRecId requestId response : String)
    (hid : isValidUUID requestId = true)
    (hresp : response ∈ validResponses)
    (req : ValidationRequest)
    (hfind : findRequestJoined db requestId = some req) :
    (req.status ≠ "pending" →
      respondToValidation db now newRecId requestId response
        = (Except.error VError.requestNotPending, db)) ∧
    (req.status = "pending" → now > req.expires_at →
      respondToValidation db now newRecId requestId response
        = (Except.error VError.requestExpired, db)) ∧
    httpStatus VError.requestNotPending = 410 ∧
    httpStatus VError.requestExpired = 410 := by
  have h0 : ¬ (requestId = "" ∨ response = "") := by
    push_neg
    exact ⟨isValidUUID_ne_empty hid, validResponse_ne_empty hresp⟩
  refine ⟨?_, ?_, rfl, rfl⟩
  · intro hs
    unfold respondToValidation
    rw [if_neg h0, if_neg (not_not_intro hid), if_neg (not_not_intro hresp)]
    simp only [hfind]
    rw [if_pos hs]
  · intro hs hexp
    unfold respondToValidation
    rw [if_neg h0, if_neg (not_not_intro hid), if_neg (not_not_intro hresp)]
    simp only [hfind]
    rw [if_neg (not_not_intro hs), if_pos hexp]

def uuidE : String := "55555555-5555-4555-8555-555555555555"

/-- An already-approved request (terminal state). -/
def reqApprovedEx : ValidationRequest :=
  { id := uuidC, from_user_id := uuidA, to_user_id := uuidB, category := "skills",
    specific_item := "Go", status := "approved", expires_at := 604800, created_at := 0 }

/-- A pending request whose expiry (100) is already past at time 1000. -/
def reqPendingOldEx : ValidationRequest :=
  { id := uuidE, from_user_id := uuidA, to_user_id := uuidB, category := "education",
    specific_item := "MIT", status := "pending", expires_at := 100, created_at := 0 }

def dbC3 : DB :=
  { users := [⟨uuidA, "a@x.com", none⟩, ⟨uuidB, "b@x.com", some "Bea"⟩],
    profile_items := [], connections := [], locations := [], pings := [],
    validation_requests := [reqApprovedEx, reqPendingOldEx],
    validation_records := [] }

theorem respondToValidation_notPending_or_expired_witness :
    respondToValidation dbC3 1000 uuidD uuidC "approved"
      = (Except.error VError.requestNotPending, dbC3) ∧
    respondToValidation dbC3 1000 uuidD uuidE "approved"
      = (Except.error VError.requestExpired, dbC3) :=
  ⟨(respondToValidation_notPending_or_expired dbC3 1000 uuidD uuidC "approved"
      (by decide) (by decide) reqApprovedEx (by decide)).1 (by decide),
   ((respondToValidation_notPending_or_expired dbC3 1000 uuidD uuidE "approved"
      (by decide) (by decide) reqPendingOldEx (by decide)).2.1 (by decide) (by decide))⟩

/-! ## C4 -/

/-- C4: responding to an existing, pending, unexpired request succeeds; the
request row (and only it) gets the given response as its new status, the
number of request rows is unchanged, and exactly when the response is
`approved` a single ValidationRecord crediting the request's target
(`validated_user_id = to_user_id`, `validator_user_id = from_user_id`, same
category and specific item, linked to the request) is appended. -/
theorem respondToValidation_pending_success
    (db : DB) (now : Int) (newRecId requestId response : String)
    (hid : isValidUUID requestId = true)
    (hresp : response ∈ validResponses)
    (req : ValidationRequest)
    (hfind : findRequestJoined db requestId = some req)
    (hpend : req.status = "pending")
    (hexp : ¬ now > req.expires_at) :
    (respondToValidation db now newRecId requestId response).1 = Except.ok () ∧
    (respondToValidation db now newRecId requestId response).2.validation_requests.length
      = db.validation_requests.length ∧
    (∃ r ∈ (respondToValidation db now newRecId requestId response).2.validation_requests,
        r.id = requestId ∧ r.status = response) ∧
    (∀ r ∈ (respondToValidation db now newRecId requestId response).2.validation_requests,
        r.id = requestId → r.status = response) ∧
    (∀ r ∈ (respondToValidation db now newRecId requestId response).2.validation_requests,
        r.id ≠ requestId → r ∈ db.validation_requests) ∧
    (response = "approved" →
      (respondToValidation db now newRecId requestId response).2.validation_records
        = db.validation_records ++ [mkValidationRecord newRecId req requestId]) ∧
    (response = "declined" →
      (respondToValidation db now newRecId requestId response).2.validation_records
        = db.validation_records) := by
  rw [respondToValidation_success_eq db now newRecId requestId response
        hid hresp req hfind hpend hexp]
  have hreqid : req.id = requestId := findRequestJoined_id hfind
  have hmem : req ∈ db.validation_requests := List.mem_of_find?_eq_some hfind
  refine ⟨rfl, List.length_map _ _, ?_, ?_, ?_, ?_, ?_⟩
  · refine ⟨{ req with status := response }, ?_, hreqid, rfl⟩
    have := List.mem_map_of_mem
      (fun r : ValidationRequest =>
        if r.id == requestId then { r with status := response } else r) hmem
    simpa [hreqid] using this
  · intro r hr hrid
    rw [List.mem_map] at hr
    obtain ⟨s, _, rfl⟩ := hr
    by_cases h : s.id = requestId
    · simp [h]
    · simp only [beq_iff_eq, if_neg h] at hrid ⊢
      exact absurd hrid h
  · intro r hr hrid
    rw [List.mem_map] at hr
    obtain ⟨s, hs, rfl⟩ := hr
    by_cases h : s.id = requestId
    · simp [h] at hrid
    · simpa [h] using hs
  · intro h
    subst h
    simp
  · intro h
    subst h
    simp

def reqC4 : ValidationRequest :=
  { id := uuidC, from_user_id := uuidA, to_user_id := uuidB, category := "skills",
    specific_item := "Go", status := "pending", expires_at := 604800, created_at := 0 }

def dbC4 : DB :=
  { users := [⟨uuidA, "a@x.com", none⟩, ⟨uuidB, "b@x.com", some "Bea"⟩],
    profile_items := [], connections := [], locations := [], pings := [],
    validation_requests := [reqC4],
    validation_records := [] }

theorem respondToValidation_pending_success_witness :
    (respondToValidation dbC4 10 uuidD uuidC "approved").1 = Except.ok () ∧
    (respondToValidation dbC4 10 uuidD uuidC "approved").2.validation_records
      = dbC4.validation_records ++ [mkValidationRecord uuidD reqC4 uuidC] :=
  ⟨(respondToValidation_pending_success dbC4 10 uuidD uuidC "approved"
      (by decide) (by decide) reqC4 (by decide) (by decide) (by decide)).1,
   (respondToValidation_pending_success dbC4 10 uuidD uuidC "approved"
      (by decide) (by decide) reqC4 (by decide) (by decide) (by decide)).2.2.2.2.2.1 rfl⟩

/-! ## Reduction lemmas for POST /validation/request -/

/-- When every check before the duplicate/already-validated lookups passes,
the handler's outcome is decided by those two lookups and the insert. -/
theorem requestValidation_eq_of_checks
    (db : DB) (now : Int) (newId fromUserId toUserId category specificItem : String)
    (hfu : isValidUUID fromUserId = true) (htu : isValidUUID toUserId = true)
    (hne : fromUserId ≠ toUserId)
    (hcat : category ∈ validCategories)
    (hitem : specificItem ≠ "")
    (husers : userPairCount db fromUserId toUserId = 2)
    (hconn : getConnectionStatus db fromUserId toUserId = some "connected")
    (hfound : itemTextMatches db toUserId (mapCategory category) specificItem = true) :
    requestValidation db now newId fromUserId toUserId category specificItem
      = if pendingRequestExists db fromUserId toUserId category specificItem = true then
          (Except.error VError.duplicateRequest, db)
        else if recordExists db toUserId fromUserId category specificItem = true then
          (Except.error VError.alreadyValidated, db)
        else
          (Except.ok ⟨newId, now⟩,
           { db with validation_requests :=
               db.validation_requests ++
                 [mkValidationRequest newId fromUserId toUserId category specificItem now] }) := by
  have h0 : ¬ (fromUserId = "" ∨ toUserId = "" ∨ category = "" ∨ specificItem = "") := by
    push_neg
    exact ⟨isValidUUID_ne_empty hfu, isValidUUID_ne_empty htu,
           validCategory_ne_empty hcat, hitem⟩
  unfold requestValidation
  rw [if_neg h0, if_neg (not_not_intro ⟨hfu, htu⟩), if_neg hne,
      if_neg (not_not_intro hcat), if_neg (not_not_intro husers),
      if_neg (not_not_intro hconn), if_neg (not_not_intro hfound)]

theorem requestValidation_success_eq
    (db : DB) (now : Int) (newId fromUserId toUserId category specificItem : String)
    (hfu : isValidUUID fromUserId = true) (htu : isValidUUID toUserId = true)
    (hne : fromUserId ≠ toUserId)
    (hcat : category ∈ validCategories)
    (hitem : specificItem ≠ "")
    (husers : userPairCount db fromUserId toUserId = 2)
    (hconn : getConnectionStatus db fromUserId toUserId = some "connected")
    (hfound : itemTextMatches db toUserId (mapCategory category) specificItem = true)
    (hnodup : pendingRequestExists db fromUserId toUserId category specificItem = false)
    (hnorec : recordExists db toUserId fromUserId category specificItem = false) :
    requestValidation db now newId fromUserId toUserId category specificItem
      = (Except.ok ⟨newId, now⟩,
         { db with validation_requests :=
             db.validation_requests ++
               [mkValidationRequest newId fromUserId toUserId category specificItem now] }) := by
  rw [requestValidation_eq_of_checks db now newId fromUserId toUserId category specificItem
        hfu htu hne hcat hitem husers hconn hfound,
      if_neg (by simp [hnodup]), if_neg (by simp [hnorec])]

theorem requestValidation_duplicate_eq
    (db : DB) (now : Int) (newId fromUserId toUserId category specificItem : String)
    (hfu : isValidUUID fromUserId = true) (htu : isValidUUID toUserId = true)
    (hne : fromUserId ≠ toUserId)
    (hcat : category ∈ validCategories)
    (hitem : specificItem ≠ "")
    (husers : userPairCount db fromUserId toUserId = 2)
    (hconn : getConnectionStatus db fromUserId toUserId = some "connected")
    (hfound : itemTextMatches db toUserId (mapCategory category) specificItem = true)
    (hdup : pendingRequestExists db fromUserId toUserId category specificItem = true) :
    requestValidation db now newId fromUserId toUserId category specificItem
      = (Except.error VError.duplicateRequest, db) := by
  rw [requestValidation_eq_of_checks db now newId fromUserId toUserId category specificItem
        hfu htu hne hcat hitem husers hconn hfound,
      if_pos hdup]

theorem requestValidation_already_eq
    (db : DB) (now : Int) (newId fromUserId toUserId category specificItem : String)
    (hfu : isValidUUID fromUserId = true) (htu : isValidUUID toUserId = true)
    (hne : fromUserId ≠ toUserId)
    (hcat : category ∈ validCategories)
    (hitem : specificItem ≠ "")
    (husers : userPairCount db fromUserId toUserId = 2)
    (hconn : getConnectionStatus db fromUserId toUserId = some "connected")
    (hfound : itemTextMatches db toUserId (mapCategory category) specificItem = true)
    (hnodup : pendingRequestExists db fromUserId toUserId category specificItem = false)
    (hrec : recordExists db toUserId fromUserId category specificItem = true) :
    requestValidation db now newId fromUserId toUserId category specificItem
      = (Except.error VError.alreadyValidated, db) := by
  rw [requestValidation_eq_of_checks db now newId fromUserId toUserId category specificItem
        hfu htu hne hcat hitem husers hconn hfound,
      if_neg (by simp [hnodup]), if_pos hrec]

/-! ## Transport lemmas across the scenario of C2 -/

theorem pendingRequestExists_insert
    (db : DB) (newId fromUserId toUserId category specificItem : String) (now : Int) :
    pendingRequestExists
      { db with validation_requests :=
          db.validation_requests ++
            [mkValidationRequest newId fromUserId toUserId category specificItem now] }
      fromUserId toUserId category specificItem = true := by
  simp [pendingRequestExists, pendingMatch, mkValidationRequest]

theorem findRequestJoined_insert
    (db : DB) (newId fromUserId toUserId category specificItem : String) (now : Int)
    (hfresh : ∀ r ∈ db.validation_requests, r.id ≠ newId)
    (hfue : userExists db fromUserId = true) (htue : userExists db toUserId = true) :
    findRequestJoined
      { db with validation_requests :=
          db.validation_requests ++
            [mkValidationRequest newId fromUserId toUserId category specificItem now] }
      newId
      = some (mkValidationRequest newId fromUserId toUserId category specificItem now) := by
  unfold findRequestJoined
  rw [List.find?_append]
  have h1 : db.validation_requests.find? (fun r =>
      r.id == newId &&
      userExists { db with validation_requests :=
          db.validation_requests ++
            [mkValidationRequest newId fromUserId toUserId category specificItem now] } r.from_user_id &&
      userExists { db with validation_requests :=
          db.validation_requests ++
            [mkValidationRequest newId fromUserId toUserId category specificItem now] } r.to_user_id) = none := by
    rw [List.find?_eq_none]
    intro r hr
    simp [hfresh r hr]
  rw [h1, Option.none_or, List.find?_cons_of_pos]
  simp only [mkValidationRequest, Bool.and_eq_true, beq_self_eq_true, true_and]
  exact ⟨hfue, htue⟩

theorem pendingRequestExists_after_respond
    (db : DB) (newId fromUserId toUserId category specificItem resp : String) (now : Int)
    (hnodup : pendingRequestExists db fromUserId toUserId category specificItem = false)
    (hfresh : ∀ r ∈ db.validation_requests, r.id ≠ newId)
    (hresp : resp ≠ "pending") :
    ((db.validation_requests ++
        [mkValidationRequest newId fromUserId toUserId category specificItem now]).map fun r =>
          if r.id == newId then { r with status := resp } else r).any
      (pendingMatch fromUserId toUserId category specificItem) = false := by
  rw [List.map_append, List.any_append]
  have hmap : (db.validation_requests.map fun r =>
      if r.id == newId then { r with status := resp } else r) = db.validation_requests := by
    conv_rhs => rw [← List.map_id db.validation_requests]
    exact List.map_congr_left fun r hr => by simp [hfresh r hr]
  rw [hmap]
  have hst : (resp == "pending") = false := beq_eq_false_iff_ne.mpr hresp
  have h2 : pendingRequestExists db fromUserId toUserId category specificItem
      = db.validation_requests.any (pendingMatch fromUserId toUserId category specificItem) := rfl
  rw [h2] at hnodup
  rw [hnodup]
  simp [pendingMatch, mkValidationRequest, hst]

theorem recordExists_after_approve
    (recs : List ValidationRecord)
    (newRecId newId fromUserId toUserId category specificItem : String) (now : Int) :
    (recs ++ [mkValidationRecord newRecId
        (mkValidationRequest newId fromUserId toUserId category specificItem now) newId]).any
      (recordMatch toUserId fromUserId category specificItem) = true := by
  simp [recordMatch, mkValidationRecord, mkValidationRequest]

/-! ## C2 -/

/-- C2: starting from a state where every precondition of
`POST /validation/request` holds and no matching request or record exists, a
first call succeeds and creates a pending request; a second call with
identical arguments fails with the duplicate-request error (HTTP 409) and
changes nothing; after the first request is approved via
`POST /validation/respond`, a third identical call fails with the
already-validated error (HTTP 409) and changes nothing. -/
theorem requestValidation_duplicate_then_alreadyValidated
    (db0 db1 db2 : DB) (res1 : Except VError RequestCreated) (resR : Except VError Unit)
    (now1 now2 nowR now3 : Int)
    (newId newId2 newRecId newId3 fromUserId toUserId category specificItem : String)
    (hfu : isValidUUID fromUserId = true) (htu : isValidUUID toUserId = true)
    (hnewid : isValidUUID newId = true)
    (hne : fromUserId ≠ toUserId)
    (hcat : category ∈ validCategories)
    (hitem : specificItem ≠ "")
    (husers : userPairCount db0 fromUserId toUserId = 2)
    (hfue : userExists db0 fromUserId = true) (htue : userExists db0 toUserId = true)
    (hconn : getConnectionStatus db0 fromUserId toUserId = some "connected")
    (hfound : itemTextMatches db0 toUserId (mapCategory category) specificItem = true)
    (hnodup : pendingRequestExists db0 fromUserId toUserId category specificItem = false)
    (hnorec : recordExists db0 toUserId fromUserId category specificItem = false)
    (hfresh : ∀ r ∈ db0.validation_requests, r.id ≠ newId)
    (hexp : ¬ nowR > now1 + sevenDays)
    (hcall1 : requestValidation db0 now1 newId fromUserId toUserId category specificItem
        = (res1, db1))
    (hcallR : respondToValidation db1 nowR newRecId newId "approved" = (resR, db2)) :
    res1 = Except.ok ⟨newId, now1⟩ ∧
    requestValidation db1 now2 newId2 fromUserId toUserId category specificItem
      = (Except.error VError.duplicateRequest, db1) ∧
    resR = Except.ok () ∧
    requestValidation db2 now3 newId3 fromUserId toUserId category specificItem
      = (Except.error VError.alreadyValidated, db2) ∧
    httpStatus VError.duplicateRequest = 409 ∧
    httpStatus VError.alreadyValidated = 409 := by
  rw [requestValidation_success_eq db0 now1 newId fromUserId toUserId category specificItem
        hfu htu hne hcat hitem husers hconn hfound hnodup hnorec] at hcall1
  injection hcall1 with h1 h2
  subst h1
  subst h2
  have hfind := findRequestJoined_insert db0 newId fromUserId toUserId category specificItem now1
    hfresh hfue htue
  rw [respondToValidation_success_eq _ nowR newRecId newId "approved" hnewid (by decide)
        (mkValidationRequest newId fromUserId toUserId category specificItem now1)
        hfind rfl hexp] at hcallR
  injection hcallR with h3 h4
  subst h3
  subst h4
  refine ⟨rfl, ?_, rfl, ?_, rfl, rfl⟩
  · exact requestValidation_duplicate_eq _ now2 newId2 fromUserId toUserId category specificItem
      hfu htu hne hcat hitem husers hconn hfound
      (pendingRequestExists_insert db0 newId fromUserId toUserId category specificItem now1)
  · exact requestValidation_already_eq _ now3 newId3 fromUserId toUserId category specificItem
      hfu htu hne hcat hitem husers hconn hfound
      (pendingRequestExists_after_respond db0 newId fromUserId toUserId category specificItem
        "approved" now1 hnodup hfresh (by decide))
      (recordExists_after_approve db0.validation_records newRecId newId fromUserId toUserId
        category specificItem now1)

def dbC2 : DB :=
  { users := [⟨uuidA, "a@x.com", none⟩, ⟨uuidB, "b@x.com", some "Bea"⟩],
    profile_items := [⟨uuidB, "skill", "\x7b\"skill\":\"Go\"\x7d"⟩],
    connections := [⟨uuidD, uuidA, uuidB, "connected"⟩],
    locations := [], pings := [],
    validation_requests := [], validation_records := [] }

def dbC2a : DB := (requestValidation dbC2 0 uuidC uuidA uuidB "skills" "Go").2

def dbC2b : DB := (respondToValidation dbC2a 5 uuidE uuidC "approved").2

theorem requestValidation_duplicate_then_alreadyValidated_witness :
    (requestValidation dbC2 0 uuidC uuidA uuidB "skills" "Go").1
      = Except.ok ⟨uuidC, 0⟩ ∧
    requestValidation dbC2a 1 uuidD uuidA uuidB "skills" "Go"
      = (Except.error VError.duplicateRequest, dbC2a) ∧
    (respondToValidation dbC2a 5 uuidE uuidC "approved").1 = Except.ok () ∧
    requestValidation dbC2b 9 uuidD uuidA uuidB "skills" "Go"
      = (Except.error VError.alreadyValidated, dbC2b) :=
  have h := requestValidation_duplicate_then_alreadyValidated dbC2 dbC2a dbC2b
    (requestValidation dbC2 0 uuidC uuidA uuidB "skills" "Go").1
    (respondToValidation dbC2a 5 uuidE uuidC "approved").1
    0 1 5 9 uuidC uuidD uuidE uuidD uuidA uuidB "skills" "Go"
    (by decide) (by decide) (by decide) (by decide) (by decide) (by decide)
    (by decide) (by decide) (by decide) (by decide) (by decide) (by decide) (by decide)
    (by intro r hr; simp [dbC2] at hr)
    (by decide) rfl rfl
  ⟨h.1, h.2.1, h.2.2.1, h.2.2.2.1⟩

/-! ## POST /connect and GET /connections/:userId (connect.js) -/

inductive ConnectMsg where
  | connectedOk
  | alreadyConnected
deriving DecidableEq

/-- `INSERT ... ON CONFLICT (from_user, to_user) DO NOTHING RETURNING *`:
rows come back exactly when no row with the same ordered pair existed;
`status` takes the schema default `'connected'`. -/
def connect (db : DB) (newId fromUser toUser : String) :
    Except VError ConnectMsg × DB :=
  if fromUser = "" ∨ toUser = "" then
    (Except.error VError.missingFields, db)
  else if ¬ (isValidUUID fromUser = true ∧ isValidUUID toUser = true) then
    (Except.error VError.invalidId, db)
  else if fromUser = toUser then
    (Except.error VError.invalidConnection, db)
  else if userPairCount db fromUser toUser ≠ 2 then
    (Except.error VError.userNotFound, db)
  else if db.connections.any (fun c => c.from_user == fromUser && c.to_user == toUser) then
    (Except.ok ConnectMsg.alreadyConnected, db)
  else
    (Except.ok ConnectMsg.connectedOk,
     { db with connections := db.connections ++ [⟨newId, fromUser, toUser, "connected"⟩] })

/-- `GET /connections/:userId`: peers of every row touching the user,
`CASE WHEN from_user = $1 THEN to_user ELSE from_user END`. -/
def listConnections (db : DB) (userId : String) : Except VError (List String) :=
  if ¬ isValidUUID userId = true then
    Except.error VError.invalidId
  else if ¬ userExists db userId = true then
    Except.error VError.userNotFound
  else
    Except.ok
      ((db.connections.filter fun c => c.from_user == userId || c.to_user == userId).map
        fun c => if c.from_user == userId then c.to_user else c.from_user)

/-! ## C6 -/

/-- C6: from a state with no connection row between distinct existing users
`a` and `b` in either direction, `Connect(a,b)` succeeds and inserts the edge;
a second `Connect(a,b)` replies "already connected" as a success (HTTP 200,
not an error) and changes nothing; afterwards exactly one row for the ordered
pair exists and `ListConnections(a)` contains `b` exactly once. -/
theorem connect_idempotent
    (db db1 : DB) (res1 : Except VError ConnectMsg) (id1 id2 a b : String)
    (hua : isValidUUID a = true) (hub : isValidUUID b = true)
    (hne : a ≠ b)
    (husers : userPairCount db a b = 2)
    (huexa : userExists db a = true)
    (hnoconn : ∀ c ∈ db.connections, connBetween a b c = false)
    (hcall1 : connect db id1 a b = (res1, db1)) :
    res1 = Except.ok ConnectMsg.connectedOk ∧
    connect db1 id2 a b = (Except.ok ConnectMsg.alreadyConnected, db1) ∧
    (db1.connections.filter fun c => c.from_user == a && c.to_user == b).length = 1 ∧
    ∃ l, listConnections db1 a = Except.ok l ∧ l.count b = 1 := by
  have h0 : ¬ (a = "" ∨ b = "") := by
    push_neg
    exact ⟨isValidUUID_ne_empty hua, isValidUUID_ne_empty hub⟩
  have hord : ∀ c ∈ db.connections, (c.from_user == a && c.to_user == b) = false := by
    intro c hc
    have h := hnoconn c hc
    unfold connBetween at h
    exact (Bool.or_eq_false_iff.mp h).1
  have hany1 : ¬ db.connections.any (fun c => c.from_user == a && c.to_user == b) = true := by
    rw [Bool.not_eq_true, List.any_eq_false]
    intro c hc
    simp [hord c hc]
  rw [show connect db id1 a b
        = (Except.ok ConnectMsg.connectedOk,
           { db with connections := db.connections ++ [⟨id1, a, b, "connected"⟩] }) by
      unfold connect
      rw [if_neg h0, if_neg (not_not_intro ⟨hua, hub⟩), if_neg hne,
          if_neg (not_not_intro husers), if_neg hany1]] at hcall1
  injection hcall1 with h1 h2
  subst h1
  subst h2
  have husers1 : userPairCount
      { db with connections := db.connections ++ [⟨id1, a, b, "connected"⟩] } a b = 2 := husers
  have huexa1 : userExists
      { db with connections := db.connections ++ [⟨id1, a, b, "connected"⟩] } a = true := huexa
  refine ⟨rfl, ?_, ?_, ?_⟩
  · unfold connect
    rw [if_neg h0, if_neg (not_not_intro ⟨hua, hub⟩), if_neg hne,
        if_neg (not_not_intro husers1), if_pos (by simp)]
  · rw [show ({ db with connections := db.connections ++ [⟨id1, a, b, "connected"⟩] } : DB).connections
          = db.connections ++ [⟨id1, a, b, "connected"⟩] from rfl,
        List.filter_append]
    rw [List.filter_eq_nil_iff.mpr (fun c hc => by simp [hord c hc])]
    simp
  · refine ⟨((db.connections ++ [(⟨id1, a, b, "connected"⟩ : Connection)]).filter fun c =>
        c.from_user == a || c.to_user == a).map
          (fun c => if c.from_user == a then c.to_user else c.from_user), ?_, ?_⟩
    · unfold listConnections
      rw [if_neg (not_not_intro hua), if_neg (not_not_intro huexa1)]
    · rw [List.filter_append, List.map_append, List.count_append]

      have hzero : (((db.connections.filter fun c =>
          c.from_user == a || c.to_user == a).map
            fun c => if c.from_user == a then c.to_user else c.from_user).count b) = 0 := by
        rw [List.count_eq_zero]
        intro hmem
        rw [List.mem_map] at hmem
        obtain ⟨c, hcf, hcb⟩ := hmem
        rw [List.mem_filter] at hcf
        obtain ⟨hcmem, hg⟩ := hcf
        have h := hnoconn c hcmem
        unfold connBetween at h
        obtain ⟨h1, h2⟩ := Bool.or_eq_false_iff.mp h
        by_cases hfa : c.from_user = a
        · rw [if_pos (by simp [hfa])] at hcb
          rw [hfa, hcb] at h1
          simp at h1
        · rw [if_neg (by simp [hfa])] at hcb
          simp only [Bool.or_eq_true, beq_iff_eq] at hg
          rcases hg with hg | hg
          · exact hfa hg
          · rw [hcb, hg] at h2
            simp at h2
      rw [hzero]
      simp

def dbC6 : DB :=
  { users := [⟨uuidA, "a@x.com", none⟩, ⟨uuidB, "b@x.com", some "Bea"⟩],
    profile_items := [], connections := [], locations := [], pings := [],
    validation_requests := [], validation_records := [] }

def dbC6a : DB := (connect dbC6 uuidC uuidA uuidB).2

theorem connect_idempotent_witness :
    (connect dbC6 uuidC uuidA uuidB).1 = Except.ok ConnectMsg.connectedOk ∧
    connect dbC6a uuidD uuidA uuidB = (Except.ok ConnectMsg.alreadyConnected, dbC6a) ∧
    ∃ l, listConnections dbC6a uuidA = Except.ok l ∧ l.count uuidB = 1 :=
  have h := connect_idempotent dbC6 dbC6a (connect dbC6 uuidC uuidA uuidB).1
    uuidC uuidD uuidA uuidB
    (by decide) (by decide) (by decide) (by decide) (by decide)
    (by intro c hc; simp [dbC6] at hc)
    rfl
  ⟨h.1, h.2.1, h.2.2.2⟩

/-! ## GET /validation/summary/:userId (validation.js lines 439-531) -/

def validationsFor (db : DB) (userId : String) : List ValidationRecord :=
  db.validation_records.filter fun r => r.validated_user_id == userId

def countCat (recs : List ValidationRecord) (c : String) : Nat :=
  recs.countP fun r => r.category == c

/-- Rows of the `GROUP BY category` count query: one `(category, count)` pair
per distinct category of the user's records. -/
def categoryRows (recs : List ValidationRecord) : List (String × Nat) :=
  (recs.map ValidationRecord.category).dedup.map fun c => (c, countCat recs c)

/-- JavaScript object update `obj[key] = value`: replace in place when the key
exists, append otherwise. -/
def setAssoc (l : List (String × Nat)) (k : String) (v : Nat) : List (String × Nat) :=
  if l.any (fun p => p.1 == k) then
    l.map fun p => if p.1 == k then (k, v) else p
  else l ++ [(k, v)]

/-- The handler seeds the breakdown with all three categories at zero. -/
def baseBreakdown : List (String × Nat) :=
  [("skills", 0), ("education", 0), ("experience", 0)]

def categoryBreakdown (recs : List ValidationRecord) : List (String × Nat) :=
  (categoryRows recs).foldl (fun acc p => setAssoc acc p.1 p.2) baseBreakdown

def keysOf (l : List (String × Nat)) : List String := l.map Prod.fst

/-- `GROUP BY category, specific_item` pairs. -/
def itemPairs (recs : List ValidationRecord) : List (String × String) :=
  (recs.map fun r => (r.category, r.specific_item)).dedup

def itemCount (recs : List ValidationRecord) (c i : String) : Nat :=
  recs.countP fun r => r.category == c && r.specific_item == i

def itemRows (recs : List ValidationRecord) : List (String × String × Nat) :=
  (itemPairs recs).map fun p => (p.1, p.2, itemCount recs p.1 p.2)

/-- `ORDER BY category, count DESC`. -/
def itemRowLe (x y : String × String × Nat) : Prop :=
  x.1 < y.1 ∨ (x.1 = y.1 ∧ y.2.2 ≤ x.2.2)

instance : DecidableRel itemRowLe := fun x y => by
  unfold itemRowLe
  infer_instance

instance : IsTotal (String × String × Nat) itemRowLe :=
  ⟨by
    intro x y
    rcases lt_trichotomy x.1 y.1 with h | h | h
    · exact Or.inl (Or.inl h)
    · rcases le_total y.2.2 x.2.2 with h2 | h2
      · exact Or.inl (Or.inr ⟨h, h2⟩)
      · exact Or.inr (Or.inr ⟨h.symm, h2⟩)
    · exact Or.inr (Or.inl h)⟩

instance : IsTrans (String × String × Nat) itemRowLe :=
  ⟨by
    intro x y z hxy hyz
    rcases hxy with h1 | ⟨h1, h1c⟩
    · rcases hyz with h2 | ⟨h2, _⟩
      · exact Or.inl (h1.trans h2)
      · exact Or.inl (lt_of_lt_of_le h1 (le_of_eq h2))
    · rcases hyz with h2 | ⟨h2, h2c⟩
      · exact Or.inl (lt_of_le_of_lt (le_of_eq h1) h2)
      · exact Or.inr ⟨h1.trans h2, h2c.trans h1c⟩⟩

def sortedItemRows (recs : List ValidationRecord) : List (String × String × Nat) :=
  List.insertionSort itemRowLe (itemRows recs)

/-- The JS loop fills `itemBreakdown[category]` following the sorted row
order, so each category key maps to its rows (item, count) in query order. -/
def itemBreakdown (recs : List ValidationRecord) :
    List (String × List (String × Nat)) :=
  ((sortedItemRows recs).map fun x => x.1).dedup.map fun c =>
    (c, ((sortedItemRows recs).filter fun x => x.1 == c).map fun x => (x.2.1, x.2.2))

structure Summary where
  userId : String
  totalValidations : Nat
  categoryBreakdown : List (String × Nat)
  itemBreakdown : List (String × List (String × Nat))
deriving DecidableEq

def summarize (db : DB) (userId : String) : Except VError Summary :=
  if ¬ isValidUUID userId = true then
    Except.error VError.invalidId
  else if ¬ userExists db userId = true then
    Except.error VError.userNotFound
  else
    Except.ok
      { userId := userId,
        totalValidations := (validationsFor db userId).length,
        categoryBreakdown := categoryBreakdown (validationsFor db userId),
        itemBreakdown := itemBreakdown (validationsFor db userId) }

/-! ## Association-list lemmas for the category breakdown -/

theorem lookup_map_set (ps : List (String × Nat)) (k : String) (v : Nat)
    (h : k ∈ ps.map Prod.fst) :
    List.lookup k (ps.map fun p => if p.1 == k then (k, v) else p) = some v := by
  induction ps with
  | nil => simp at h
  | cons p ps ih =>
    obtain ⟨pk, pv⟩ := p
    rw [List.map_cons]
    by_cases hpk : pk = k
    · rw [show (if (((pk, pv) : String × Nat).1 == k) = true then (k, v) else (pk, pv))
            = (k, v) from by simp [hpk]]
      exact List.lookup_cons_self
    · rw [show (if (((pk, pv) : String × Nat).1 == k) = true then (k, v) else (pk, pv))
            = (pk, pv) from by simp [hpk]]
      have hne : (k == pk) = false := beq_eq_false_iff_ne.mpr fun hh => hpk hh.symm
      rw [List.lookup_cons, hne]
      rw [List.map_cons, List.mem_cons] at h
      rcases h with h | h
      · exact absurd h.symm hpk
      · exact ih h

theorem lookup_map_set_other (ps : List (String × Nat)) (k q : String) (v : Nat)
    (hqk : q ≠ k) :
    List.lookup q (ps.map fun p => if p.1 == k then (k, v) else p)
      = List.lookup q ps := by
  induction ps with
  | nil => rfl
  | cons p ps ih =>
    obtain ⟨pk, pv⟩ := p
    rw [List.map_cons]
    by_cases hpk : pk = k
    · rw [show (if (((pk, pv) : String × Nat).1 == k) = true then (k, v) else (pk, pv))
            = (k, v) from by simp [hpk]]
      have h2 : (q == k) = false := beq_eq_false_iff_ne.mpr hqk
      have h3 : (q == pk) = false :=
        beq_eq_false_iff_ne.mpr fun hh => hqk (hh.trans hpk)
      rw [List.lookup_cons, h2, List.lookup_cons, h3]
      exact ih
    · rw [show (if (((pk, pv) : String × Nat).1 == k) = true then (k, v) else (pk, pv))
            = (pk, pv) from by simp [hpk]]
      by_cases hqpk : q = pk
      · rw [List.lookup_cons, List.lookup_cons]
        rw [show (q == pk) = true from by simp [hqpk]]
      · have h3 : (q == pk) = false := beq_eq_false_iff_ne.mpr hqpk
        rw [List.lookup_cons, h3, List.lookup_cons, h3]
        exact ih

theorem lookup_append_single (ps : List (String × Nat)) (k q : String) (v : Nat)
    (hqk : q ≠ k) :
    List.lookup q (ps ++ [(k, v)]) = List.lookup q ps := by
  induction ps with
  | nil =>
    simp only [List.nil_append]
    rw [List.lookup_cons, beq_eq_false_iff_ne.mpr hqk]
  | cons p ps ih =>
    obtain ⟨pk, pv⟩ := p
    rw [List.cons_append, List.lookup_cons, List.lookup_cons]
    cases hq : (q == pk) with
    | true => rfl
    | false => exact ih

theorem lookup_setAssoc_self (l : List (String × Nat)) (k : String) (v : Nat)
    (h : k ∈ keysOf l) :
    List.lookup k (setAssoc l k v) = some v := by
  unfold setAssoc
  have hany : l.any (fun p => p.1 == k) = true := by
    rw [List.any_eq_true]
    rw [keysOf, List.mem_map] at h
    obtain ⟨p, hp, he⟩ := h
    exact ⟨p, hp, by simp [he]⟩
  rw [if_pos hany]
  exact lookup_map_set l k v (by rw [keysOf] at h; exact h)

theorem lookup_setAssoc_other (l : List (String × Nat)) (k q : String) (v : Nat)
    (hqk : q ≠ k) :
    List.lookup q (setAssoc l k v) = List.lookup q l := by
  unfold setAssoc
  by_cases hany : l.any (fun p => p.1 == k) = true
  · rw [if_pos hany]
    exact lookup_map_set_other l k q v hqk
  · rw [if_neg hany]
    exact lookup_append_single l k q v hqk

theorem keysOf_setAssoc_superset (l : List (String × Nat)) (k k' : String) (v : Nat)
    (h : k ∈ keysOf l) : k ∈ keysOf (setAssoc l k' v) := by
  unfold setAssoc
  by_cases hany : l.any (fun p => p.1 == k') = true
  · rw [if_pos hany]
    unfold keysOf at h ⊢
    rw [List.mem_map] at h ⊢
    obtain ⟨p, hp, he⟩ := h
    by_cases hpk : p.1 = k'
    · exact ⟨(k', v), List.mem_map.mpr ⟨p, hp, by simp [hpk]⟩, hpk.symm.trans he⟩
    · exact ⟨p, List.mem_map.mpr ⟨p, hp, by simp [hpk]⟩, he⟩
  · rw [if_neg hany]
    unfold keysOf at h ⊢
    rw [List.map_append]
    exact List.mem_append_left _ h

theorem lookup_foldl_setAssoc_miss (rows : List (String × Nat))
    (l : List (String × Nat)) (k : String)
    (h : ∀ p ∈ rows, p.1 ≠ k) :
    List.lookup k (rows.foldl (fun acc p => setAssoc acc p.1 p.2) l)
      = List.lookup k l := by
  induction rows generalizing l with
  | nil => rfl
  | cons p rows ih =>
    rw [List.foldl_cons]
    rw [ih _ fun q hq => h q (List.mem_cons_of_mem p hq)]
    exact lookup_setAssoc_other l p.1 k p.2 (Ne.symm (h p (List.mem_cons_self p rows)))

theorem keysOf_foldl_superset (rows : List (String × Nat))
    (l : List (String × Nat)) (k : String)
    (h : k ∈ keysOf l) :
    k ∈ keysOf (rows.foldl (fun acc p => setAssoc acc p.1 p.2) l) := by
  induction rows generalizing l with
  | nil => exact h
  | cons p rows ih =>
    rw [List.foldl_cons]
    exact ih _ (keysOf_setAssoc_superset l k p.1 p.2 h)

theorem lookup_foldl_setAssoc_hit (rows : List (String × Nat))
    (l : List (String × Nat)) (k : String) (v : Nat)
    (hk : k ∈ keysOf l)
    (hnd : (rows.map Prod.fst).Nodup)
    (hmem : (k, v) ∈ rows) :
    List.lookup k (rows.foldl (fun acc p => setAssoc acc p.1 p.2) l) = some v := by
  obtain ⟨s, t, rfl⟩ := List.append_of_mem hmem
  rw [List.foldl_append, List.foldl_cons]
  rw [List.map_append, List.map_cons] at hnd
  have hkmem : (k : String) ∉ t.map Prod.fst :=
    (List.nodup_cons.mp (List.Nodup.of_append_right hnd)).1
  have hkt : ∀ p ∈ t, p.1 ≠ k := by
    intro p hp hpk
    exact hkmem (List.mem_map.mpr ⟨p, hp, hpk⟩)
  rw [lookup_foldl_setAssoc_miss t _ k hkt]
  exact lookup_setAssoc_self _ k v (keysOf_foldl_superset s l k hk)

theorem lookup_categoryBreakdown (recs : List ValidationRecord) (k : String)
    (hk : k ∈ keysOf baseBreakdown) :
    List.lookup k (categoryBreakdown recs) = some (countCat recs k) := by
  unfold categoryBreakdown
  by_cases hmem : k ∈ (recs.map ValidationRecord.category).dedup
  · apply lookup_foldl_setAssoc_hit (categoryRows recs) baseBreakdown k
      (countCat recs k) hk
    · unfold categoryRows
      rw [List.map_map]
      rw [show (Prod.fst ∘ fun c => ((c, countCat recs c) : String × Nat)) = id from rfl,
          List.map_id]
      exact List.nodup_dedup _
    · unfold categoryRows
      exact List.mem_map.mpr ⟨k, hmem, rfl⟩
  · rw [lookup_foldl_setAssoc_miss]
    · have hzero : countCat recs k = 0 := by
        unfold countCat
        rw [List.countP_eq_zero]
        intro r hr hbeq
        exact hmem (List.mem_dedup.mpr
          (List.mem_map.mpr ⟨r, hr, by simpa using hbeq⟩))
      rw [hzero]
      have hk3 : k = "skills" ∨ k = "education" ∨ k = "experience" := by
        simpa [keysOf, baseBreakdown] using hk
      rcases hk3 with h | h | h <;> subst h <;> rfl
    · intro p hp
      unfold categoryRows at hp
      rw [List.mem_map] at hp
      obtain ⟨c, hc, rfl⟩ := hp
      intro hck
      exact hmem (hck ▸ hc)

theorem countCat_sum (recs : List ValidationRecord)
    (h : ∀ r ∈ recs, r.category ∈ validCategories) :
    countCat recs "skills" + countCat recs "education" + countCat recs "experience"
      = recs.length := by
  induction recs with
  | nil => rfl
  | cons r rs ih =>
    have hr := h r (List.mem_cons_self r rs)
    have hih := ih fun x hx => h x (List.mem_cons_of_mem r hx)
    simp only [validCategories, List.mem_cons, List.not_mem_nil, or_false] at hr
    unfold countCat at hih ⊢
    rcases hr with hc | hc | hc <;>
      simp only [List.countP_cons, hc, beq_self_eq_true, beq_iff_eq, List.length_cons] <;>
      simp <;> omega

/-! ## C5 -/

theorem mem_sortedItemRows (recs : List ValidationRecord) {x : String × String × Nat} :
    x ∈ sortedItemRows recs ↔ x ∈ itemRows recs :=
  (List.perm_insertionSort itemRowLe (itemRows recs)).mem_iff

theorem itemBreakdown_sorted (recs : List ValidationRecord) :
    ∀ p ∈ itemBreakdown recs,
      List.Pairwise (fun x y : String × Nat => y.2 ≤ x.2) p.2 := by
  intro p hp
  unfold itemBreakdown at hp
  rw [List.mem_map] at hp
  obtain ⟨c, hc, rfl⟩ := hp
  rw [List.pairwise_map]
  have hs : List.Pairwise itemRowLe (sortedItemRows recs) :=
    List.sorted_insertionSort itemRowLe (itemRows recs)
  have hf : List.Pairwise itemRowLe
      ((sortedItemRows recs).filter fun x => x.1 == c) :=
    List.Pairwise.sublist (List.filter_sublist (sortedItemRows recs)) hs
  refine List.Pairwise.imp_of_mem ?_ hf
  intro a b ha hb hab
  rw [List.mem_filter] at ha hb
  have hac : a.1 = c := by simpa using ha.2
  have hbc : b.1 = c := by simpa using hb.2
  rcases hab with h | ⟨_, h⟩
  · rw [hac, hbc] at h
    exact absurd h (lt_irrefl c)
  · exact h

theorem itemBreakdown_counts (recs : List ValidationRecord) :
    ∀ p ∈ itemBreakdown recs, ∀ q ∈ p.2, q.2 = itemCount recs p.1 q.1 := by
  intro p hp q hq
  unfold itemBreakdown at hp
  rw [List.mem_map] at hp
  obtain ⟨c, hc, rfl⟩ := hp
  rw [List.mem_map] at hq
  obtain ⟨x, hx, rfl⟩ := hq
  rw [List.mem_filter] at hx
  obtain ⟨hxmem, hxc⟩ := hx
  have hxr : x ∈ itemRows recs := (mem_sortedItemRows recs).mp hxmem
  unfold itemRows at hxr
  rw [List.mem_map] at hxr
  obtain ⟨pr, _, rfl⟩ := hxr
  have hc1 : pr.1 = c := by simpa using hxc
  simp [hc1]

theorem itemBreakdown_complete (recs : List ValidationRecord) :
    ∀ r ∈ recs, ∃ p ∈ itemBreakdown recs, p.1 = r.category ∧
      ∃ q ∈ p.2, q.1 = r.specific_item := by
  intro r hr
  have hpair : ((r.category, r.specific_item) : String × String) ∈ itemPairs recs := by
    unfold itemPairs
    rw [List.mem_dedup, List.mem_map]
    exact ⟨r, hr, rfl⟩
  have hrow : ((r.category, r.specific_item,
      itemCount recs r.category r.specific_item) : String × String × Nat)
      ∈ itemRows recs := by
    unfold itemRows
    rw [List.mem_map]
    exact ⟨(r.category, r.specific_item), hpair, rfl⟩
  have hrowS : ((r.category, r.specific_item,
      itemCount recs r.category r.specific_item) : String × String × Nat)
      ∈ sortedItemRows recs := (mem_sortedItemRows recs).mpr hrow
  have hcmem : r.category ∈ ((sortedItemRows recs).map fun x => x.1).dedup := by
    rw [List.mem_dedup, List.mem_map]
    exact ⟨_, hrowS, rfl⟩
  refine ⟨(r.category,
      ((sortedItemRows recs).filter fun x => x.1 == r.category).map
        fun x => (x.2.1, x.2.2)), ?_, rfl, ?_⟩
  · unfold itemBreakdown
    rw [List.mem_map]
    exact ⟨r.category, hcmem, rfl⟩
  · refine ⟨(r.specific_item, itemCount recs r.category r.specific_item), ?_, rfl⟩
    rw [List.mem_map]
    refine ⟨(r.category, r.specific_item,
      itemCount recs r.category r.specific_item), ?_, rfl⟩
    rw [List.mem_filter]
    exact ⟨hrowS, by simp⟩

/-- C5: for a valid existing user, `GET /validation/summary/:userId` reports
`totalValidations` equal to the number of the user's ValidationRecords; the
category breakdown answers all three category keys (skills, education,
experience, zero when absent) each with the exact per-category count, and the
three counts sum to the total; the item breakdown lists each (category,
specific item) of the records with its exact count, sorted within each
category by descending count. -/
theorem summarize_spec (db : DB) (userId : String)
    (hid : isValidUUID userId = true)
    (huser : userExists db userId = true)
    (hcats : ∀ r ∈ validationsFor db userId, r.category ∈ validCategories) :
    ∃ out, summarize db userId = Except.ok out ∧
      out.totalValidations = (validationsFor db userId).length ∧
      List.lookup "skills" out.categoryBreakdown
        = some (countCat (validationsFor db userId) "skills") ∧
      List.lookup "education" out.categoryBreakdown
        = some (countCat (validationsFor db userId) "education") ∧
      List.lookup "experience" out.categoryBreakdown
        = some (countCat (validationsFor db userId) "experience") ∧
      countCat (validationsFor db userId) "skills"
        + countCat (validationsFor db userId) "education"
        + countCat (validationsFor db userId) "experience"
        = (validationsFor db userId).length ∧
      (∀ p ∈ out.itemBreakdown,
        List.Pairwise (fun x y : String × Nat => y.2 ≤ x.2) p.2) ∧
      (∀ p ∈ out.itemBreakdown, ∀ q ∈ p.2,
        q.2 = itemCount (validationsFor db userId) p.1 q.1) ∧
      (∀ r ∈ validationsFor db userId, ∃ p ∈ out.itemBreakdown,
        p.1 = r.category ∧ ∃ q ∈ p.2, q.1 = r.specific_item) := by
  refine ⟨{ userId := userId,
            totalValidations := (validationsFor db userId).length,
            categoryBreakdown := categoryBreakdown (validationsFor db userId),
            itemBreakdown := itemBreakdown (validationsFor db userId) }, ?_, rfl,
          lookup_categoryBreakdown _ "skills" (by decide),
          lookup_categoryBreakdown _ "education" (by decide),
          lookup_categoryBreakdown _ "experience" (by decide),
          countCat_sum _ hcats, itemBreakdown_sorted _, itemBreakdown_counts _,
          itemBreakdown_complete _⟩
  unfold summarize
  rw [if_neg (not_not_intro hid), if_neg (not_not_intro huser)]

def dbC5 : DB :=
  { users := [⟨uuidB, "b@x.com", some "Bea"⟩],
    profile_items := [], connections := [], locations := [], pings := [],
    validation_requests := [],
    validation_records :=
      [⟨uuidC, uuidB, uuidA, "skills", "Go", none⟩,
       ⟨uuidD, uuidB, uuidE, "skills", "Go", none⟩,
       ⟨uuidE, uuidB, uuidA, "education", "MIT", none⟩] }

theorem summarize_spec_witness :
    ∃ out, summarize dbC5 uuidB = Except.ok out ∧
      out.totalValidations = (validationsFor dbC5 uuidB).length ∧
      List.lookup "skills" out.categoryBreakdown
        = some (countCat (validationsFor dbC5 uuidB) "skills") ∧
      List.lookup "education" out.categoryBreakdown
        = some (countCat (validationsFor dbC5 uuidB) "education") ∧
      List.lookup "experience" out.categoryBreakdown
        = some (countCat (validationsFor dbC5 uuidB) "experience") ∧
      countCat (validationsFor dbC5 uuidB) "skills"
        + countCat (validationsFor dbC5 uuidB) "education"
        + countCat (validationsFor dbC5 uuidB) "experience"
        = (validationsFor dbC5 uuidB).length ∧
      (∀ p ∈ out.itemBreakdown,
        List.Pairwise (fun x y : String × Nat => y.2 ≤ x.2) p.2) ∧
      (∀ p ∈ out.itemBreakdown, ∀ q ∈ p.2,
        q.2 = itemCount (validationsFor dbC5 uuidB) p.1 q.1) ∧
      (∀ r ∈ validationsFor dbC5 uuidB, ∃ p ∈ out.itemBreakdown,
        p.1 = r.category ∧ ∃ q ∈ p.2, q.1 = r.specific_item) :=
  summarize_spec dbC5 uuidB (by decide) (by decide) (by decide)

/-! ## GET /pings/nearby (pings.js lines 92-203)

The query-string parsing (`parseFloat`, `isNaN`) is elided: the handler is
modelled from the point where `lat`/`lng` are numbers.  Every validation
failure of this route answers the same 400 body
(`Missing or invalid lat, lng, or userId`), modelled as `invalidQuery`.
`earth_distance(ll_to_earth ...)` is the abstract meter-valued `dist`. -/

def fifteenMinutes : Int := 900

structure PingRankRow where
  userId : String
  email : String
  name : Option String
  pingId : String
  message : String
  mood : String
  latitude : ℚ
  longitude : ℚ
  category : Option String
  value : Option String
  createdAt : Int
  distance : ℚ
deriving DecidableEq

structure PingRow where
  userId : String
  displayName : String
  pingId : String
  message : String
  mood : String
  latitude : ℚ
  longitude : ℚ
  category : Option String
  value : Option String
  createdAt : Int
  distance : Int
deriving DecidableEq

/-- `ORDER BY distance ASC, created_at DESC`. -/
def pingRowLe (a b : PingRankRow) : Prop :=
  a.distance < b.distance ∨ (a.distance = b.distance ∧ b.createdAt ≤ a.createdAt)

instance : DecidableRel pingRowLe := fun a b => by
  unfold pingRowLe
  infer_instance

instance : IsTotal PingRankRow pingRowLe :=
  ⟨by
    intro x y
    rcases lt_trichotomy x.distance y.distance with h | h | h
    · exact Or.inl (Or.inl h)
    · rcases le_total y.createdAt x.createdAt with h2 | h2
      · exact Or.inl (Or.inr ⟨h, h2⟩)
      · exact Or.inr (Or.inr ⟨h.symm, h2⟩)
    · exact Or.inr (Or.inl h)⟩

instance : IsTrans PingRankRow pingRowLe :=
  ⟨by
    intro x y z hxy hyz
    rcases hxy with h1 | ⟨h1, h1c⟩
    · rcases hyz with h2 | ⟨h2, _⟩
      · exact Or.inl (h1.trans h2)
      · exact Or.inl (lt_of_lt_of_le h1 (le_of_eq h2))
    · rcases hyz with h2 | ⟨h2, h2c⟩
      · exact Or.inl (lt_of_le_of_lt (le_of_eq h1) h2)
      · exact Or.inr ⟨h1.trans h2, h2c.trans h1c⟩⟩

/-- JavaScript `row.name || row.email`: `null` and the empty string both fall
back to the email. -/
def displayNameOf (name : Option String) (email : String) : String :=
  match name with
  | some n => if n = "" then email else n
  | none => email

def pingMatchRows (db : DB) (now : Int) (dist : ℚ → ℚ → ℚ → ℚ → ℚ)
    (lat lng : ℚ) (userId : String) : List PingRankRow :=
  db.pings.filterMap fun p =>
    if p.user_id ≠ userId ∧ p.created_at > now - fifteenMinutes ∧
        dist p.latitude p.longitude lat lng ≤ 1000 then
      (db.users.find? fun u => u.id == p.user_id).map fun u =>
        { userId := u.id, email := u.email, name := u.name, pingId := p.id,
          message := p.message, mood := p.mood, latitude := p.latitude,
          longitude := p.longitude, category := p.category, value := p.value,
          createdAt := p.created_at,
          distance := dist p.latitude p.longitude lat lng }
    else none

def rankedNearbyPings (db : DB) (now : Int) (dist : ℚ → ℚ → ℚ → ℚ → ℚ)
    (lat lng : ℚ) (userId : String) : List PingRankRow :=
  List.insertionSort pingRowLe (pingMatchRows db now dist lat lng userId)

/-- The JS transform: display name and `Math.round` of the distance. -/
def finishPingRow (r : PingRankRow) : PingRow :=
  { userId := r.userId, displayName := displayNameOf r.name r.email,
    pingId := r.pingId, message := r.message, mood := r.mood,
    latitude := r.latitude, longitude := r.longitude, category := r.category,
    value := r.value, createdAt := r.createdAt, distance := round r.distance }

def getNearbyPings (db : DB) (now : Int) (dist : ℚ → ℚ → ℚ → ℚ → ℚ)
    (lat lng : ℚ) (userId : String) : Except VError (List PingRow) :=
  if ¬ isValidUUID userId = true then
    Except.error VError.invalidQuery
  else if lat < -90 ∨ lat > 90 then
    Except.error VError.invalidQuery
  else if lng < -180 ∨ lng > 180 then
    Except.error VError.invalidQuery
  else
    Except.ok ((rankedNearbyPings db now dist lat lng userId).map finishPingRow)

/-! ## C7 -/

theorem mem_rankedNearbyPings (db : DB) (now : Int) (dist : ℚ → ℚ → ℚ → ℚ → ℚ)
    (lat lng : ℚ) (userId : String) {r : PingRankRow} :
    r ∈ rankedNearbyPings db now dist lat lng userId
      ↔ r ∈ pingMatchRows db now dist lat lng userId :=
  (List.perm_insertionSort pingRowLe (pingMatchRows db now dist lat lng userId)).mem_iff

/-- C7: `GET /pings/nearby` never returns a ping of the requesting user nor
one created 15 minutes or more before the query, and only pings within 1000
meters; a ping of another (existing) user created 14 minutes ago within range
does appear; the pre-rounding rows are sorted by ascending distance and, at
equal distance, by descending creation time; every reported distance is the
rounding of the exact distance of its row. -/
theorem getNearbyPings_spec (db : DB) (now : Int) (dist : ℚ → ℚ → ℚ → ℚ → ℚ)
    (lat lng : ℚ) (userId : String)
    (hid : isValidUUID userId = true)
    (hlat : ¬ (lat < -90 ∨ lat > 90))
    (hlng : ¬ (lng < -180 ∨ lng > 180)) :
    ∃ rows, getNearbyPings db now dist lat lng userId = Except.ok rows ∧
      rows = (rankedNearbyPings db now dist lat lng userId).map finishPingRow ∧
      (∀ r ∈ rankedNearbyPings db now dist lat lng userId,
        r.userId ≠ userId ∧ r.createdAt > now - fifteenMinutes ∧ r.distance ≤ 1000) ∧
      List.Pairwise pingRowLe (rankedNearbyPings db now dist lat lng userId) ∧
      (∀ q ∈ rows, ∃ r ∈ rankedNearbyPings db now dist lat lng userId,
        q.distance = round r.distance ∧ q.pingId = r.pingId) ∧
      (∀ p ∈ db.pings, ∀ u : User,
        db.users.find? (fun v => v.id == p.user_id) = some u →
        p.user_id ≠ userId → p.created_at = now - 840 →
        dist p.latitude p.longitude lat lng ≤ 1000 →
        ∃ q ∈ rows, q.pingId = p.id) := by
  refine ⟨(rankedNearbyPings db now dist lat lng userId).map finishPingRow,
    ?_, rfl, ?_, List.sorted_insertionSort pingRowLe _, ?_, ?_⟩
  · unfold getNearbyPings
    rw [if_neg (not_not_intro hid), if_neg hlat, if_neg hlng]
  · intro r hr
    rw [mem_rankedNearbyPings] at hr
    unfold pingMatchRows at hr
    rw [List.mem_filterMap] at hr
    obtain ⟨p, hp, hfp⟩ := hr
    by_cases hcond : p.user_id ≠ userId ∧ p.created_at > now - fifteenMinutes ∧
        dist p.latitude p.longitude lat lng ≤ 1000
    · rw [if_pos hcond] at hfp
      cases hu : db.users.find? fun u => u.id == p.user_id with
      | none => rw [hu] at hfp; exact absurd hfp (by simp)
      | some u =>
        rw [hu] at hfp
        have huid : u.id = p.user_id := by
          have := List.find?_some hu
          simpa using this
        simp only [Option.map_some', Option.some.injEq] at hfp
        subst hfp
        exact ⟨by simpa [huid] using hcond.1, hcond.2.1, hcond.2.2⟩
    · rw [if_neg hcond] at hfp
      exact absurd hfp (by simp)
  · intro q hq
    rw [List.mem_map] at hq
    obtain ⟨r, hr, rfl⟩ := hq
    exact ⟨r, hr, rfl, rfl⟩
  · intro p hp u hu hne hcreated hdist
    have hcond : p.user_id ≠ userId ∧ p.created_at > now - fifteenMinutes ∧
        dist p.latitude p.longitude lat lng ≤ 1000 := by
      refine ⟨hne, ?_, hdist⟩
      rw [hcreated]
      unfold fifteenMinutes
      omega
    refine ⟨finishPingRow
      { userId := u.id, email := u.email, name := u.name, pingId := p.id,
        message := p.message, mood := p.mood, latitude := p.latitude,
        longitude := p.longitude, category := p.category, value := p.value,
        createdAt := p.created_at,
        distance := dist p.latitude p.longitude lat lng }, ?_, rfl⟩
    rw [List.mem_map]
    refine ⟨_, ?_, rfl⟩
    rw [mem_rankedNearbyPings]
    unfold pingMatchRows
    rw [List.mem_filterMap]
    refine ⟨p, hp, ?_⟩
    rw [if_pos hcond, hu]
    rfl

def dbC7 : DB :=
  { users := [⟨uuidA, "a@x.com", none⟩, ⟨uuidB, "b@x.com", some "Bea"⟩],
    profile_items := [], connections := [], locations := [],
    pings :=
      [⟨uuidC, uuidB, "hello", "happy", 1, 2, none, none, 160⟩,
       ⟨uuidD, uuidA, "own ping", "calm", 1, 2, none, none, 900⟩,
       ⟨uuidE, uuidB, "old ping", "tired", 1, 2, none, none, 40⟩],
    validation_requests := [], validation_records := [] }

theorem getNearbyPings_spec_witness :
    ∃ rows, getNearbyPings dbC7 1000 (fun _ _ _ _ => 500) 1 2 uuidA = Except.ok rows ∧
      rows = (rankedNearbyPings dbC7 1000 (fun _ _ _ _ => 500) 1 2 uuidA).map finishPingRow ∧
      (∀ r ∈ rankedNearbyPings dbC7 1000 (fun _ _ _ _ => 500) 1 2 uuidA,
        r.userId ≠ uuidA ∧ r.createdAt > 1000 - fifteenMinutes ∧ r.distance ≤ 1000) ∧
      List.Pairwise pingRowLe (rankedNearbyPings dbC7 1000 (fun _ _ _ _ => 500) 1 2 uuidA) ∧
      (∀ q ∈ rows, ∃ r ∈ rankedNearbyPings dbC7 1000 (fun _ _ _ _ => 500) 1 2 uuidA,
        q.distance = round r.distance ∧ q.pingId = r.pingId) ∧
      (∀ p ∈ dbC7.pings, ∀ u : User,
        dbC7.users.find? (fun v => v.id == p.user_id) = some u →
        p.user_id ≠ uuidA → p.created_at = 1000 - 840 →
        (fun _ _ _ _ => (500 : ℚ)) p.latitude p.longitude 1 2 ≤ 1000 →
        ∃ q ∈ rows, q.pingId = p.id) :=
  getNearbyPings_spec dbC7 1000 (fun _ _ _ _ => 500) 1 2 uuidA
    (by decide) (by decide) (by decide)

/-! ## GET /locations/nearby (locations.js lines 86-174, utils/geo.js)

`createNearbyCondition` emits
`earth_distance(ll_to_earth(l.latitude, l.longitude), ll_to_earth($1,$2)) <= $3 * 1000`:
the caller's kilometer radius is compared in meters after multiplying by 1000.
Query-string parsing is elided as for `GET /pings/nearby`; the SQL
`COALESCE(u.name, u.email)` falls back only on NULL (not on empty strings). -/

structure LocationRow where
  userId : String
  displayName : String
  email : String
  mood : Option String
  latitude : ℚ
  longitude : ℚ
  locationUpdatedAt : Int
deriving DecidableEq

/-- `LEFT JOIN LATERAL (SELECT mood FROM pings WHERE user_id = u.id
ORDER BY created_at DESC LIMIT 1)`. -/
def latestPingMood (db : DB) (uid : String) : Option String :=
  ((db.pings.filter fun p => p.user_id == uid).foldl
    (fun acc p =>
      match acc with
      | none => some p
      | some q => if p.created_at > q.created_at then some p else acc)
    none).map Ping.mood

def locationMatchRows (db : DB) (dist : ℚ → ℚ → ℚ → ℚ → ℚ)
    (lat lng radius : ℚ) : List LocationRow :=
  db.locations.filterMap fun l =>
    if dist l.latitude l.longitude lat lng ≤ radius * 1000 then
      (db.users.find? fun u => u.id == l.user_id).map fun u =>
        { userId := u.id, displayName := u.name.getD u.email, email := u.email,
          mood := latestPingMood db u.id, latitude := l.latitude,
          longitude := l.longitude, locationUpdatedAt := l.created_at }
    else none

/-- `ORDER BY l.created_at DESC`. -/
def locRowLe (a b : LocationRow) : Prop :=
  b.locationUpdatedAt ≤ a.locationUpdatedAt

instance : DecidableRel locRowLe := fun a b => by
  unfold locRowLe
  infer_instance

instance : IsTotal LocationRow locRowLe :=
  ⟨fun a b => (le_total b.locationUpdatedAt a.locationUpdatedAt).imp id id⟩

instance : IsTrans LocationRow locRowLe :=
  ⟨fun _ _ _ h1 h2 => le_trans h2 h1⟩

def getNearbyLocations (db : DB) (dist : ℚ → ℚ → ℚ → ℚ → ℚ)
    (lat lng radius : ℚ) : Except VError (List LocationRow) :=
  if lat < -90 ∨ lat > 90 then
    Except.error VError.invalidLatitude
  else if lng < -180 ∨ lng > 180 then
    Except.error VError.invalidLongitude
  else if radius ≤ 0 then
    Except.error VError.invalidRadius
  else
    Except.ok (List.insertionSort locRowLe (locationMatchRows db dist lat lng radius))

/-! ## C8 -/

/-- C8: for valid in-range coordinates and a positive radius,
`GET /locations/nearby` returns only rows whose distance to the query point is
at most `radius * 1000` meters (the kilometer radius converted to meters by
`createNearbyCondition`), and every returned row is backed by a Location row
of that user — users with no Location row never appear. -/
theorem getNearbyLocations_spec (db : DB) (dist : ℚ → ℚ → ℚ → ℚ → ℚ)
    (lat lng radius : ℚ)
    (hlat : ¬ (lat < -90 ∨ lat > 90))
    (hlng : ¬ (lng < -180 ∨ lng > 180))
    (hrad : ¬ radius ≤ 0) :
    ∃ rows, getNearbyLocations db dist lat lng radius = Except.ok rows ∧
      (∀ r ∈ rows, dist r.latitude r.longitude lat lng ≤ radius * 1000) ∧
      (∀ r ∈ rows, ∃ l ∈ db.locations, l.user_id = r.userId ∧
        l.latitude = r.latitude ∧ l.longitude = r.longitude) := by
  refine ⟨List.insertionSort locRowLe (locationMatchRows db dist lat lng radius),
    ?_, ?_, ?_⟩
  · unfold getNearbyLocations
    rw [if_neg hlat, if_neg hlng, if_neg hrad]
  all_goals
    intro r hr
    rw [(List.perm_insertionSort locRowLe (locationMatchRows db dist lat lng radius)).mem_iff]
      at hr
    unfold locationMatchRows at hr
    rw [List.mem_filterMap] at hr
    obtain ⟨l, hl, hfl⟩ := hr
    by_cases hcond : dist l.latitude l.longitude lat lng ≤ radius * 1000
    case neg =>
      rw [if_neg hcond] at hfl
      exact absurd hfl (by simp)
    case pos =>
      rw [if_pos hcond] at hfl
      cases hu : db.users.find? fun u => u.id == l.user_id with
      | none => rw [hu] at hfl; exact absurd hfl (by simp)
      | some u =>
        rw [hu] at hfl
        have huid : u.id = l.user_id := by
          have := List.find?_some hu
          simpa using this
        simp only [Option.map_some', Option.some.injEq] at hfl
        subst hfl
        first
        | exact hcond
        | exact ⟨l, hl, huid.symm, rfl, rfl⟩

def dbC8 : DB :=
  { users := [⟨uuidA, "a@x.com", none⟩, ⟨uuidB, "b@x.com", some "Bea"⟩],
    profile_items := [], connections := [],
    locations := [⟨uuidC, uuidB, 1, 2, 50⟩],
    pings := [], validation_requests := [], validation_records := [] }

theorem getNearbyLocations_spec_witness :
    ∃ rows, getNearbyLocations dbC8 (fun _ _ _ _ => 700) 1 2 3 = Except.ok rows ∧
      (∀ r ∈ rows, (fun _ _ _ _ => (700 : ℚ)) r.latitude r.longitude 1 2 ≤ 3 * 1000) ∧
      (∀ r ∈ rows, ∃ l ∈ dbC8.locations, l.user_id = r.userId ∧
        l.latitude = r.latitude ∧ l.longitude = r.longitude) :=
  getNearbyLocations_spec dbC8 (fun _ _ _ _ => 700) 1 2 3
    (by decide) (by decide) (by decide)

/-! ## POST /pings (pings.js lines 10-89) and POST /locations (locations.js lines 7-83)

Request bodies are JSON, so the `!field` required-field checks use JavaScript
truthiness: a string field is falsy iff empty, a number field is falsy iff
absent or zero, and `category`/`value` sit in the same check as the rest. -/

def strTruthy (s : String) : Bool := s != ""

def numTruthy (x : Option ℚ) : Bool :=
  match x with
  | none => false
  | some v => v != 0

def optStrTruthy (x : Option String) : Bool :=
  match x with
  | none => false
  | some s => s != ""

def pingCategories : List String := ["skill", "education", "experience"]

def createPing (db : DB) (now : Int) (newId : String)
    (userId message mood : String) (latitude longitude : Option ℚ)
    (category value : Option String) : Except VError Ping × DB :=
  if ¬ (strTruthy userId && strTruthy message && strTruthy mood &&
        numTruthy latitude && numTruthy longitude &&
        optStrTruthy category && optStrTruthy value) = true then
    (Except.error VError.missingFields, db)
  else
    match latitude, longitude, category, value with
    | some la, some ln, some cat, some v =>
      if cat ∉ pingCategories then
        (Except.error VError.invalidCategory, db)
      else if la < -90 ∨ la > 90 then
        (Except.error VError.invalidLatitude, db)
      else if ln < -180 ∨ ln > 180 then
        (Except.error VError.invalidLongitude, db)
      else if ¬ userExists db userId = true then
        (Except.error VError.userNotFound, db)
      else
        (Except.ok ⟨newId, userId, message, mood, la, ln, some cat, some v, now⟩,
         { db with pings :=
             db.pings ++ [⟨newId, userId, message, mood, la, ln, some cat, some v, now⟩] })
    -- unreachable: the truthiness check above already rejects absent fields
    | _, _, _, _ => (Except.error VError.missingFields, db)

/-- JavaScript `parseInt` (radix 10, no leading whitespace modelled): optional
sign followed by the longest digit run; `NaN` when no digits. -/
def digitVal (c : Char) : Nat := c.toNat - 48

def parseIntJS (s : String) : Option Int :=
  let cs := s.toList
  let signAndRest : Int × List Char :=
    match cs with
    | c :: tl => if c = '-' then (-1, tl) else if c = '+' then (1, tl) else (1, cs)
    | [] => (1, [])
  let digits := signAndRest.2.takeWhile Char.isDigit
  if digits.isEmpty then none
  else some (signAndRest.1 * digits.foldl (fun a c => a * 10 + (digitVal c : Int)) 0)

/-- `POST /locations`: this revision additionally insists `userId` parses as a
number (`parseInt`) before the `users` lookup, then upserts the single
Location row (`ON CONFLICT (user_id) DO UPDATE`). -/
def upsertLocation (db : DB) (now : Int) (newId : String)
    (userId : String) (lat lng : Option ℚ) : Except VError Unit × DB :=
  if ¬ (strTruthy userId && numTruthy lat && numTruthy lng) = true then
    (Except.error VError.missingFields, db)
  else
    match lat, lng with
    | some la, some ln =>
      if la < -90 ∨ la > 90 then
        (Except.error VError.invalidLatitude, db)
      else if ln < -180 ∨ ln > 180 then
        (Except.error VError.invalidLongitude, db)
      else
        match parseIntJS userId with
        | none => (Except.error VError.invalidId, db)
        | some uidNum =>
          if ¬ userExists db (toString uidNum) = true then
            (Except.error VError.userNotFound, db)
          else if db.locations.any (fun l => l.user_id == toString uidNum) then
            (Except.ok (),
             { db with locations := db.locations.map fun l =>
                 if l.user_id == toString uidNum then
                   { l with latitude := la, longitude := ln, created_at := now }
                 else l })
          else
            (Except.ok (),
             { db with locations :=
                 db.locations ++ [⟨newId, toString uidNum, la, ln, now⟩] })
    -- unreachable: the truthiness check above already rejects absent fields
    | _, _ => (Except.error VError.missingFields, db)

/-! ## C9 -/

def dbC9 : DB :=
  { users := [⟨uuidA, "a@x.com", none⟩],
    profile_items := [], connections := [], locations := [], pings := [],
    validation_requests := [], validation_records := [] }

/-- C9 fails on the code: a `POST /pings` request with a valid existing user,
message, mood and in-range non-zero coordinates but no `category`/`value` is
rejected with the 400 missing-fields error and inserts nothing, because
`category` and `value` sit inside the required-field truthiness check
(pings.js line 14). -/
theorem createPing_optional_category_counterexample :
    createPing dbC9 0 uuidC uuidA "hello" "happy" (some 10) (some 20) none none
      = (Except.error VError.missingFields, dbC9) ∧
    userExists dbC9 uuidA = true ∧
    ¬ ((10 : ℚ) < -90 ∨ (10 : ℚ) > 90) ∧ ¬ ((20 : ℚ) < -180 ∨ (20 : ℚ) > 180) := by
  refine ⟨?_, by decide, by decide, by decide⟩
  rfl

/-- C9 (amended): `CreatePing` treats `category` and `value` as required: a
request omitting them fails with the 400 missing-fields error and inserts no
Ping row, even when every other field is valid; supplying them (a valid
category and a non-empty value) makes the same request insert the Ping. -/
theorem createPing_requires_category_value
    (db : DB) (now : Int) (newId userId message mood : String) (la ln : ℚ)
    (hu : userId ≠ "") (hm : message ≠ "") (hd : mood ≠ "")
    (hla0 : la ≠ 0) (hln0 : ln ≠ 0)
    (hlar : ¬ (la < -90 ∨ la > 90)) (hlnr : ¬ (ln < -180 ∨ ln > 180))
    (hux : userExists db userId = true) :
    createPing db now newId userId message mood (some la) (some ln) none none
      = (Except.error VError.missingFields, db) ∧
    (∀ cat val, cat ∈ pingCategories → val ≠ "" →
      createPing db now newId userId message mood (some la) (some ln)
          (some cat) (some val)
        = (Except.ok ⟨newId, userId, message, mood, la, ln, some cat, some val, now⟩,
           { db with pings :=
               db.pings ++
                 [⟨newId, userId, message, mood, la, ln, some cat, some val, now⟩] })) := by
  constructor
  · unfold createPing
    rw [if_pos (by simp [optStrTruthy])]
  · intro cat val hcat hval
    have hcne : cat ≠ "" := by
      rcases (by simpa [pingCategories] using hcat :
        cat = "skill" ∨ cat = "education" ∨ cat = "experience") with h | h | h <;>
        subst h <;> decide
    unfold createPing
    rw [if_neg (by
      simp [strTruthy, numTruthy, optStrTruthy, hu, hm, hd, hla0, hln0, hval, hcne])]
    dsimp only
    rw [if_neg (not_not_intro hcat), if_neg hlar, if_neg hlnr,
        if_neg (not_not_intro hux)]

def dbC9b : DB := dbC9

theorem createPing_requires_category_value_witness :
    createPing dbC9b 0 uuidC uuidA "hello" "happy" (some 10) (some 20) none none
      = (Except.error VError.missingFields, dbC9b) ∧
    (∀ cat val, cat ∈ pingCategories → val ≠ "" →
      createPing dbC9b 0 uuidC uuidA "hello" "happy" (some 10) (some 20)
          (some cat) (some val)
        = (Except.ok ⟨uuidC, uuidA, "hello", "happy", 10, 20, some cat, some val, 0⟩,
           { dbC9b with pings :=
               dbC9b.pings ++
                 [⟨uuidC, uuidA, "hello", "happy", 10, 20, some cat, some val, 0⟩] })) :=
  createPing_requires_category_value dbC9b 0 uuidC uuidA "hello" "happy" 10 20
    (by decide) (by decide) (by decide) (by decide) (by decide) (by decide) (by decide)
    (by decide)

/-! ## C10 -/

/-- C10: because the required-field checks use JavaScript truthiness, a
latitude or longitude of exactly 0 — inside the documented valid ranges — is
reported as a missing field (HTTP 400) by both `POST /locations` and
`POST /pings`, and no row is written. -/
theorem zero_coordinate_rejected
    (db : DB) (now : Int) (newId userId message mood : String)
    (other : Option ℚ) (category value : Option String) :
    upsertLocation db now newId userId (some 0) other
      = (Except.error VError.missingFields, db) ∧
    upsertLocation db now newId userId other (some 0)
      = (Except.error VError.missingFields, db) ∧
    createPing db now newId userId message mood (some 0) other category value
      = (Except.error VError.missingFields, db) ∧
    createPing db now newId userId message mood other (some 0) category value
      = (Except.error VError.missingFields, db) ∧
    ¬ ((0 : ℚ) < -90 ∨ (0 : ℚ) > 90) ∧ ¬ ((0 : ℚ) < -180 ∨ (0 : ℚ) > 180) ∧
    httpStatus VError.missingFields = 400 := by
  refine ⟨?_, ?_, ?_, ?_, by decide, by decide, rfl⟩
  · unfold upsertLocation
    rw [if_pos (by simp [numTruthy])]
  · unfold upsertLocation
    rw [if_pos (by simp [numTruthy])]
  · unfold createPing
    rw [if_pos (by simp [numTruthy])]
  · unfold createPing
    rw [if_pos (by simp [numTruthy])]

end Reign
